import Mathlib

/-!
Verification of the footloose cluster lifecycle orchestrator
(`pkg/cluster/cluster.go`) against its natural-language specification.

Go strings are modelled as `List Char`; Go `error` values as `Option`ed or
`Except`ed strings; the docker backend and the ssh subprocess are modelled as
oracles/explicit state, with the decisive control flow translated statement by
statement from `cluster.go`.
-/

namespace Footloose

/-- Go strings, modelled as lists of characters. -/
abbrev GoStr := List Char

/-- The character for a single decimal digit `n < 10` (as in Go's `fmt`). -/
def digitChar (n : Nat) : Char := Char.ofNat (48 + n)

/-- Fuel-driven decimal rendering; `fuel > n` always suffices since the
value shrinks strictly at every division by 10. -/
def natDecAux : Nat → Nat → GoStr
  | 0, _ => []
  | fuel + 1, n =>
    if n < 10 then [digitChar n]
    else natDecAux fuel (n / 10) ++ [digitChar (n % 10)]

/-- Decimal rendering of a natural number, most significant digit first,
as produced by Go's `fmt` verb `%d` for non-negative integers. -/
def natDec (n : Nat) : GoStr := natDecAux (n + 1) n

/-- Value of a decimal digit string (inverse of `natDec` on its range). -/
def decVal (l : GoStr) : Nat :=
  l.foldl (fun acc c => acc * 10 + (c.toNat - 48)) 0

/-- A Go value passed through `...interface{}` to `fmt.Sprintf` in
`cluster.go`: only strings and (non-negative) integers are ever passed. -/
inductive GoVal where
  | str : GoStr → GoVal
  | int : Nat → GoVal
deriving DecidableEq, Repr

/-- Rendering of leftover arguments, as in Go's `%!(EXTRA type=value)`. -/
def extraVal : GoVal → GoStr
  | .str s => "string=".toList ++ s
  | .int n => "int=".toList ++ natDec n

/-- Go's `fmt` behaviour on arguments left over after the format string is
exhausted: it appends `%!(EXTRA ...)`. Empty argument list yields nothing. -/
def extras : List GoVal → GoStr
  | [] => []
  | a :: rest =>
    "%!(EXTRA ".toList ++ extraVal a ++
      (rest.flatMap (fun b => ", ".toList ++ extraVal b)) ++ ")".toList

/-- Application of a single format verb to a single argument, covering the
verbs `cluster.go` uses (`%d`, `%s`) including Go's mismatch markers. -/
def verbFmt (v : Char) (a : GoVal) : GoStr :=
  match v, a with
  | 'd', .int n => natDec n
  | 's', .str s => s
  | 'd', .str s => "%!d(string=".toList ++ s ++ ")".toList
  | 's', .int n => "%!s(int=".toList ++ natDec n ++ ")".toList
  | v, .str s => '%' :: '!' :: v :: '(' :: "string=".toList ++ s ++ ")".toList
  | v, .int n => '%' :: '!' :: v :: '(' :: "int=".toList ++ natDec n ++ ")".toList

/-- Model of Go's `fmt.Sprintf` restricted to the shapes `cluster.go` feeds it
(wrapped there in the helper `f`): literal text, `%%`, and the verbs handled by
`verbFmt`, with Go's `%!v(MISSING)` / `%!(EXTRA ...)` behaviour at the edges. -/
def sprintf : GoStr → List GoVal → GoStr
  | [], args => extras args
  | c :: rest, args =>
    if c = '%' then
      match rest with
      | [] => "%!(NOVERB)".toList ++ extras args
      | v :: rest' =>
        if v = '%' then '%' :: sprintf rest' args
        else
          match args with
          | [] => '%' :: '!' :: v :: "(MISSING)".toList ++ sprintf rest' []
          | a :: args' => verbFmt v a ++ sprintf rest' args'
    else c :: sprintf rest args

/-! ## Configuration data model

Modelled from the spec: the `config` package (§3 of the spec) is not part of
the provided source; its record shapes are reconstructed from the spec's data
model and from every field access `cluster.go` makes. Field names follow the
Go struct fields. -/

/-- Go struct `config.PortMapping`: container port, optional host port (0 = unset),
optional bind address, optional protocol. Ports are Go `uint16` values,
modelled as `Nat` (reduced `% 2^16` wherever the code converts). -/
structure PortMapping where
  Address : GoStr
  HostPort : Nat
  ContainerPort : Nat
  Protocol : GoStr
deriving DecidableEq, Repr

/-- Go struct `config.Volume`: a declared volume mount. (`Type` is a Lean keyword, so
the field is named `typ`.) -/
structure Volume where
  typ : GoStr
  Source : GoStr
  Destination : GoStr
  ReadOnly : Bool
deriving DecidableEq, Repr

/-- Go struct `config.Machine`: one machine template's spec. -/
structure MachineSpec where
  Name : GoStr
  Image : GoStr
  Cmd : GoStr
  Privileged : Bool
  Volumes : List Volume
  PortMappings : List PortMapping
deriving DecidableEq, Repr

/-- Go struct `config.MachineReplicas`: a template plus its replica count. -/
structure MachineReplicas where
  Spec : MachineSpec
  Count : Nat
deriving DecidableEq, Repr

/-- Go struct `config.Cluster`: cluster-wide settings used by `cluster.go`. -/
structure ClusterConf where
  Name : GoStr
  PrivateKey : GoStr
deriving DecidableEq, Repr

/-- Go struct `config.Config`: the root configuration (`c.spec` in `cluster.go`). -/
structure Config where
  Cluster : ClusterConf
  Machines : List MachineReplicas
deriving DecidableEq, Repr

/-- The runtime `Machine` value built by `Cluster.machine`. Modelled from the
spec: the `Machine` struct itself lives in a file outside the provided source,
but every field here is assigned in `cluster.go` (`spec`, `name`, `hostname`
in `machine`, `ip` in `gatherMachines`), and per the spec its accessors
`ContainerName`/`Hostname` return the stored `name`/`hostname`. -/
structure Machine where
  spec : MachineSpec
  name : GoStr
  hostname : GoStr
  ip : GoStr := []
deriving DecidableEq, Repr

/-! ## Machine identity resolver (`containerName`, `machine`,
`machineFromHostname`) -/

/-- Model of `Cluster.containerName`: `format := "%s-" + machine.Name`, then
`f(format, c.spec.Cluster.Name, i)`. -/
def containerName (c : Config) (m : MachineSpec) (i : Nat) : GoStr :=
  sprintf ("%s-".toList ++ m.Name) [.str c.Cluster.Name, .int i]

/-- Model of `Cluster.machine`: builds the runtime machine value for replica `i` of a
template, with `name` from `containerName` and `hostname := f(spec.Name, i)`. -/
def machine (c : Config) (spec : MachineSpec) (i : Nat) : Machine :=
  { spec := spec
    name := containerName c spec i
    hostname := sprintf spec.Name [.int i] }

/-- The hostname of replica `i` of a template: `f(template.Spec.Name, i)`,
exactly the expression `machineFromHostname` and `machine` compare/store. -/
def hostnameOf (spec : MachineSpec) (i : Nat) : GoStr :=
  sprintf spec.Name [.int i]

/-- Model of `Cluster.machineFromHostname`: scans templates in declaration order and
indices `0..Count-1` in ascending order, returning the machine of the first
`(template, index)` pair whose formatted hostname equals the argument;
otherwise the error `"<hostname>: invalid machine hostname"`. -/
def machineFromHostname (c : Config) (hostname : GoStr) : Except GoStr Machine :=
  match c.Machines.findSome? (fun t =>
      (List.range t.Count).findSome? (fun i =>
        if hostname = hostnameOf t.Spec i then some (machine c t.Spec i) else none)) with
  | some m => .ok m
  | none => .error (hostname ++ ": invalid machine hostname".toList)

/-! ## Fleet iterator (`forEachMachine`)

The Go `do` callback returns an `error` and may have effects; it is modelled
as an explicit state transformer `Machine → Nat → σ → σ × Option ε`
(`none` = Go `nil` error). -/

/-- Inner loop of `forEachMachine`: `for i := 0; i < template.Count; i++`,
running the action on `machine(&template.Spec, i)` and returning the first
error. `is` is instantiated with `List.range count`. -/
def runIndices {σ ε : Type} (c : Config) (doFn : Machine → Nat → σ → σ × Option ε)
    (spec : MachineSpec) : List Nat → σ → σ × Option ε
  | [], s => (s, none)
  | i :: rest, s =>
    match doFn (machine c spec i) i s with
    | (s', some e) => (s', some e)
    | (s', none) => runIndices c doFn spec rest s'

/-- Outer loop of `forEachMachine`: `for _, template := range c.spec.Machines`. -/
def runTemplates {σ ε : Type} (c : Config) (doFn : Machine → Nat → σ → σ × Option ε) :
    List MachineReplicas → σ → σ × Option ε
  | [], s => (s, none)
  | t :: rest, s =>
    match runIndices c doFn t.Spec (List.range t.Count) s with
    | (s', some e) => (s', some e)
    | (s', none) => runTemplates c doFn rest s'

/-- Model of `Cluster.forEachMachine`: applies the action to every machine instance,
templates in declaration order, indices ascending, stopping at the first
error. -/
def forEachMachine {σ ε : Type} (c : Config) (doFn : Machine → Nat → σ → σ × Option ε)
    (s : σ) : σ × Option ε :=
  runTemplates c doFn c.Machines s

/-- The flattened schedule of `(template spec, index)` pairs in the exact
visit order of `forEachMachine` / `gatherMachinesByCluster`. -/
def schedule (c : Config) : List (MachineSpec × Nat) :=
  c.Machines.flatMap (fun t => (List.range t.Count).map (fun i => (t.Spec, i)))

/-- Sequential short-circuit execution over an explicit schedule list. -/
def runSeq {σ ε : Type} (c : Config) (doFn : Machine → Nat → σ → σ × Option ε) :
    List (MachineSpec × Nat) → σ → σ × Option ε
  | [], s => (s, none)
  | (spec, i) :: rest, s =>
    match doFn (machine c spec i) i s with
    | (s', some e) => (s', some e)
    | (s', none) => runSeq c doFn rest s'

/-! ## Backend state and docker primitives

Modelled from the spec: the docker backend and the `Machine.IsRunning` /
`Machine.IsStarted` predicates live outside the provided source. Per the spec
(§3, §4.3) each instance is, at any instant, in exactly one of
`absent / created-but-stopped / created-and-started`; `IsRunning` means "the
container object exists at all" and `IsStarted` means "the process inside is
executing". The primitives an operation invokes are recorded as an explicit
trace. -/

/-- Backend lifecycle state of one machine instance. -/
inductive MachineState where
  | absent
  | stopped
  | started
deriving DecidableEq, Repr

/-- Modelled from the spec: `Machine.IsRunning` — the container exists
(backend "running" vocabulary means "exists", not "started"). -/
def isRunning : MachineState → Bool
  | .absent => false
  | .stopped => true
  | .started => true

/-- Modelled from the spec: `Machine.IsStarted` — the inner process is
executing. -/
def isStarted : MachineState → Bool
  | .absent => false
  | .stopped => false
  | .started => true

/-- One backend/process primitive invoked by `cluster.go` on behalf of a
machine instance. -/
inductive DockerCmd where
  | run (image : GoStr) (args : List GoStr) (cmd : List GoStr)
  | start (name : GoStr)
  | stop (name : GoStr)
  | kill (signal : GoStr) (name : GoStr)
  | rm (name : GoStr)
  | execShell (name : GoStr) (script : GoStr)
  | copyInto (name : GoStr) (content : GoStr) (dest : GoStr)
deriving DecidableEq, Repr

/-! ## Container provisioning (`createMachineRunArgs`, `createMachine`) -/

/-- The mount string built for one declared volume:
`type=<t>[,src=<s>],dst=<d>[,readonly]` (the loop body in
`createMachineRunArgs`). -/
def mountArg (v : Volume) : GoStr :=
  let mount := sprintf "type=%s".toList [.str v.typ]
  let mount := if v.Source ≠ [] then mount ++ sprintf ",src=%s".toList [.str v.Source] else mount
  let mount := mount ++ sprintf ",dst=%s".toList [.str v.Destination]
  if v.ReadOnly then mount ++ ",readonly".toList else mount

/-- The publish string built for one declared port mapping of replica `i`:
`[addr:][hostPort+i:]containerPort[/proto]` (the loop body in
`createMachineRunArgs`). -/
def publishArg (mapping : PortMapping) (i : Nat) : GoStr :=
  let publish : GoStr := []
  let publish := if mapping.Address ≠ [] then publish ++ sprintf "%s:".toList [.str mapping.Address] else publish
  let publish := if mapping.HostPort ≠ 0 then publish ++ sprintf "%d:".toList [.int (mapping.HostPort + i)] else publish
  let publish := publish ++ sprintf "%d".toList [.int mapping.ContainerPort]
  if mapping.Protocol ≠ [] then publish ++ sprintf "/%s".toList [.str mapping.Protocol] else publish

/-- Model of `Cluster.createMachineRunArgs`: the docker run argument list for replica
`i` — fixed flags and labels, name, hostname, tmpfs and cgroup mounts, one
`--mount` per declared volume, one `-p` per declared port mapping, and
`--privileged` when requested. -/
def createMachineRunArgs (c : Config) (m : Machine) (name : GoStr) (i : Nat) :
    List GoStr :=
  let runArgs : List GoStr :=
    [ "-it".toList, "-d".toList,
      "--label".toList, "works.weave.owner=footloose".toList,
      "--label".toList, "works.weave.cluster=".toList ++ c.Cluster.Name,
      "--name".toList, name,
      "--hostname".toList, m.hostname,
      "--tmpfs".toList, "/run".toList,
      "--tmpfs".toList, "/run/lock".toList,
      "--tmpfs".toList, "/tmp".toList,
      "-v".toList, "/sys/fs/cgroup:/sys/fs/cgroup:ro".toList ]
  let runArgs := runArgs ++ m.spec.Volumes.flatMap (fun v => ["--mount".toList, mountArg v])
  let runArgs := runArgs ++ m.spec.PortMappings.flatMap (fun p => ["-p".toList, publishArg p i])
  if m.spec.Privileged then runArgs ++ ["--privileged".toList] else runArgs

/-- The fixed first-boot script (`initScript` in `cluster.go`). -/
def initScript : GoStr :=
  "\nset -e\nrm -f /run/nologin\nsshdir=/root/.ssh\nmkdir $sshdir; chmod 700 $sshdir\ntouch $sshdir/authorized_keys; chmod 600 $sshdir/authorized_keys\n".toList

/-- Model of `Cluster.createMachine` on one instance: if the backend already reports
the container (`IsRunning`), log and return nil without touching the backend;
otherwise run the container, execute the first-boot script, and push the
public key. Result: `(primitives invoked, new backend state, error)`. The
success path of the external primitives is modelled from the spec (`docker
run` leaves the instance created-and-started). -/
def createMachine (c : Config) (pubKey : GoStr) (st : MachineState) (m : Machine)
    (i : Nat) : List DockerCmd × MachineState × Option GoStr :=
  let name := m.name
  let runArgs := createMachineRunArgs c m name i
  if isRunning st then ([], st, none)
  else
    let cmd := if m.spec.Cmd ≠ [] then m.spec.Cmd else "/sbin/init".toList
    ([ .run m.spec.Image runArgs [cmd],
       .execShell name initScript,
       .copyInto name pubKey "/root/.ssh/authorized_keys".toList ],
      .started, none)

/-! ## Lifecycle operations (`startMachine`, `stopMachine`, `deleteMachine`) -/

/-- Model of `Cluster.startMachine`: no-op (nil error) unless the instance exists and
is stopped, in which case `docker start` is issued. -/
def startMachine (st : MachineState) (m : Machine) :
    List DockerCmd × MachineState × Option GoStr :=
  if ¬ isRunning st then ([], st, none)
  else if isStarted st then ([], st, none)
  else ([.start m.name], .started, none)

/-- Model of `Cluster.stopMachine`: no-op (nil error) unless the instance exists and
is started, in which case `docker stop` is issued. -/
def stopMachine (st : MachineState) (m : Machine) :
    List DockerCmd × MachineState × Option GoStr :=
  if ¬ isRunning st then ([], st, none)
  else if ¬ isStarted st then ([], st, none)
  else ([.stop m.name], .stopped, none)

/-- Model of `Cluster.deleteMachine`: no-op (nil error) when the instance is absent;
kill-then-remove when started; remove when stopped. -/
def deleteMachine (st : MachineState) (m : Machine) :
    List DockerCmd × MachineState × Option GoStr :=
  if ¬ isRunning st then ([], st, none)
  else if isStarted st then
    ([.kill "KILL".toList m.name, .rm m.name], .absent, none)
  else ([.rm m.name], .absent, none)

/-! ## stderr match filters and the ssh attempt (`matchFilter.Write`, `ssh`)

Go's `regexp.Match` is applied to each `Write` payload on its own. The two
patterns of `cluster.go` are anchored at the start of the text (`^...`), so
they are modelled as executable payload predicates. A writer is either
`os.Stderr` (which consumes the payload and returns `(len(p), nil)`) or a
`matchFilter` wrapping a downstream writer. -/

/-- The regexp `^ssh_exchange_identification: ` applied to one payload:
the payload starts with the transient-refusal signature. -/
def connectRefusedMatch (p : GoStr) : Bool :=
  "ssh_exchange_identification: ".toList.isPrefixOf p

/-- Literal prefix of the `knownHosts` regexp, up to its `.*`. -/
def khLead : GoStr := "Warning: Permanently added ".toList

/-- Literal part of the `knownHosts` regexp after its `.*` and before its
final `.` (a regexp dot, i.e. one further arbitrary non-newline character). -/
def khTail : GoStr := " to the list of known hosts".toList

/-- Does `khTail` followed by one non-newline character start here? -/
def khTailHere (l : GoStr) : Bool :=
  khTail.isPrefixOf l &&
    match l.drop khTail.length with
    | [] => false
    | c :: _ => c ≠ '\n'

/-- Scan for `.* to the list of known hosts.` where `.` never crosses a
newline (RE2 default). -/
def khScan : GoStr → Bool
  | [] => false
  | c :: rest => khTailHere (c :: rest) || (c ≠ '\n' && khScan rest)

/-- The regexp `^Warning: Permanently added .* to the list of known hosts.`
applied to one payload. -/
def knownHostsMatch (p : GoStr) : Bool :=
  khLead.isPrefixOf p && khScan (p.drop khLead.length)

/-- A writer in the ssh stderr chain: `os.Stderr`, or a `matchFilter`
(`writeMatched` flag, regexp as a payload predicate, sticky `matched` flag,
downstream writer). -/
inductive Writer where
  | stderr
  | filter (writeMatched : Bool) (pattern : GoStr → Bool) (matched : Bool)
      (writer : Writer)

/-- One `Write(p)` call: `os.Stderr` emits the payload and reports
`(len(p), nil)`; `matchFilter.Write` sets `matched` when the payload matches,
suppresses a matched payload (returning `(len(p), nil)`) unless
`writeMatched`, and otherwise delegates to the downstream writer.
Result: `(updated writer, payloads reaching os.Stderr, (n, err))`. -/
def writeTo : Writer → GoStr → Writer × List GoStr × (Nat × Option GoStr)
  | .stderr, p => (.stderr, [p], (p.length, none))
  | .filter wm pat m w, p =>
    if pat p then
      if wm then
        let (w', out, ret) := writeTo w p
        (.filter wm pat true w', out, ret)
      else (.filter wm pat true w, [], (p.length, none))
    else
      let (w', out, ret) := writeTo w p
      (.filter wm pat m w', out, ret)

/-- The `matched` flag of a writer (`f.matched` in Go; `false` for stderr). -/
def writerMatched : Writer → Bool
  | .stderr => false
  | .filter _ _ m _ => m

/-- The `matched` flag of the downstream (inner) filter of a chain. -/
def innerMatched : Writer → Bool
  | .filter _ _ _ w => writerMatched w
  | .stderr => false

/-- Feed a sequence of stderr payloads through a writer, collecting
everything that reaches `os.Stderr`. -/
def writeAll (w : Writer) : List GoStr → Writer × List GoStr
  | [] => (w, [])
  | p :: rest =>
    let (w', out, _) := writeTo w p
    let (w'', outs) := writeAll w' rest
    (w'', out ++ outs)

/-- The filter chain built by `ssh`: `errFilter` (knownHosts pattern) writing
into `refusedFilter` (connectRefused pattern) writing into `os.Stderr`, both
with `writeMatched = false`. -/
def sshFilterChain : Writer :=
  .filter false knownHostsMatch false
    (.filter false connectRefusedMatch false .stderr)

/-- One `ssh(args)` call, given the attempt's exit status (`none` = success)
and the sequence of stderr payloads the subprocess writes. Returns
`(retry, err, payloads forwarded to the user's stderr)`: retry is true iff
the exit status is an error and `refusedFilter.matched` is set. -/
def sshAttempt (exitErr : Option GoStr) (writes : List GoStr) :
    Bool × Option GoStr × List GoStr :=
  let (chain, out) := writeAll sshFilterChain writes
  (exitErr.isSome && innerMatched chain, exitErr, out)

/-! ## The SSH retry loop (`Cluster.SSH`)

The loop from `cluster.go`: `retries := 25; for retries > 0 { retry, err =
ssh(args); if !retry { break }; retries--; time.Sleep(200ms) }; return err`.
Each attempt is an oracle giving that attempt's `(retry, err)` observable;
the returned triple also counts attempts made and 200ms sleeps performed. -/
def sshRetryLoop (attempt : Nat → Bool × Option GoStr) :
    Nat → Nat → Nat → Option GoStr → Option GoStr × Nat × Nat
  | 0, k, sleeps, err => (err, k, sleeps)
  | retries + 1, k, sleeps, _err =>
    let (retry, err') := attempt k
    if retry then sshRetryLoop attempt retries (k + 1) (sleeps + 1) err'
    else (err', k + 1, sleeps)

/-- The retry phase of `Cluster.SSH`: budget 25, starting with a nil error.
Returns `(final error, attempts made, sleeps performed)`. -/
def sshConnect (attempt : Nat → Bool × Option GoStr) : Option GoStr × Nat × Nat :=
  sshRetryLoop attempt 25 0 0 none

/-! ## Fleet inspection (`gatherMachines`)

The backend's `IsRunning` answer and the docker inspection record are
oracles keyed by container name. The inspection `Ports` map key is docker's
`nat.Port`; the code only uses `k.Int()`, the container port, which is the
key here (Go map iteration order is arbitrary; the list order stands in for
one such order). `uint16(...)` conversions truncate mod `2^16`. -/

/-- One `nat.PortBinding` from the docker API (both fields are strings in
the API; `HostPort` is parsed with `strconv.Atoi`). -/
structure PortBinding where
  HostIP : GoStr
  HostPort : GoStr
deriving DecidableEq, Repr

/-- One mount from the inspection record (`types.MountPoint`). -/
structure MountRec where
  typ : GoStr
  Source : GoStr
  Destination : GoStr
  RW : Bool
deriving DecidableEq, Repr

/-- The parts of `types.ContainerJSON` that `gatherMachines` reads. -/
structure InspectRecord where
  Ports : List (Nat × List PortBinding)
  Mounts : List MountRec
  Cmd : List GoStr
  IPAddress : GoStr
deriving DecidableEq, Repr

/-- Model of `strconv.Atoi` with the error discarded, as `gatherMachines` uses it on
docker host-port strings: the value on an all-digit input, 0 otherwise. -/
def goAtoi (s : GoStr) : Nat :=
  if s ≠ [] ∧ s.all (fun c => 48 ≤ c.toNat ∧ c.toNat ≤ 57) then decVal s else 0

/-- Model of `strings.Join`. -/
def goJoin (l : List GoStr) (sep : GoStr) : GoStr :=
  match l with
  | [] => []
  | x :: rest => x ++ rest.flatMap (fun y => sep ++ y)

/-- The port-overlay loop of `gatherMachines`: skip keys with no bindings;
otherwise build a `config.PortMapping` with `p.HostPort = uint16(k.Int())`,
`p.ContainerPort = uint16(Atoi(v[0].HostPort))`, `p.Address = v[0].HostIP`
(translated exactly as written, including which field receives which side). -/
def overlayPorts (ports : List (Nat × List PortBinding)) : List PortMapping :=
  ports.foldl (fun acc kv =>
    match kv.2 with
    | [] => acc
    | b :: _ =>
      acc ++ [{ Address := b.HostIP
                HostPort := kv.1 % 65536
                ContainerPort := goAtoi b.HostPort % 65536
                Protocol := [] }]) []

/-- The volume-overlay loop of `gatherMachines` (`v.ReadOnly = mount.RW`,
as written). -/
def overlayVolumes (mounts : List MountRec) : List Volume :=
  mounts.map (fun mnt =>
    { typ := mnt.typ
      Source := mnt.Source
      Destination := mnt.Destination
      ReadOnly := mnt.RW })

/-- Model of `Cluster.gatherMachinesByCluster`: the declared machines in template then
index order. -/
def gatherMachinesByCluster (c : Config) : List Machine :=
  c.Machines.flatMap (fun t => (List.range t.Count).map (fun i => machine c t.Spec i))

/-- Model of `Cluster.gatherMachines`: for every declared machine the backend reports
as running, overlay ports, volumes, the joined command, and the IP address
from the inspection record; other machines keep declared-only data. The
inspection oracle is total (the error propagation of
`gatherMachineDetails` is outside this claim's path). -/
def gatherMachines (c : Config) (running : GoStr → Bool)
    (inspectOf : GoStr → InspectRecord) : List Machine :=
  (gatherMachinesByCluster c).map (fun m =>
    if running m.name then
      let inspect := inspectOf m.name
      { m with
        spec := { m.spec with
          PortMappings := overlayPorts inspect.Ports
          Volumes := overlayVolumes inspect.Mounts
          Cmd := goJoin inspect.Cmd ",".toList }
        ip := inspect.IPAddress }
    else m)

/-! ## Concrete instances used by witnesses and counterexamples -/

/-- Is a primitive the container-creating `docker run`? -/
def isRunCmd : DockerCmd → Bool
  | .run _ _ _ => true
  | _ => false

/-- Is a primitive the first-boot `Exec` of a shell script? -/
def isExecCmd : DockerCmd → Bool
  | .execShell _ _ => true
  | _ => false

/-- Is a primitive the key push (`CopyInto`)? -/
def isCopyCmd : DockerCmd → Bool
  | .copyInto _ _ _ => true
  | _ => false

/-- A sample declared port mapping: container port 22 on host port 2222. -/
def samplePM : PortMapping :=
  { Address := [], HostPort := 2222, ContainerPort := 22, Protocol := [] }

/-- A sample template spec (name slot `node%d`). -/
def sampleSpec : MachineSpec :=
  { Name := "node%d".toList
    Image := "quay.io/footloose/centos7".toList
    Cmd := []
    Privileged := false
    Volumes := []
    PortMappings := [samplePM] }

/-- A sample cluster configuration with one template, two replicas. -/
def sampleConfig : Config :=
  { Cluster := { Name := "firecracker".toList, PrivateKey := "cluster-key".toList }
    Machines := [{ Spec := sampleSpec, Count := 2 }] }

/-- The runtime machine value of replica 0 of the sample template. -/
def sampleMachine : Machine := machine sampleConfig sampleSpec 0

/-- Template `A` of the fleet-iterator scenario (claim C5). -/
def specA : MachineSpec :=
  { Name := "A%d".toList, Image := "imgA".toList, Cmd := [], Privileged := false
    Volumes := [], PortMappings := [] }

/-- Template `B` of the fleet-iterator scenario (claim C5). -/
def specB : MachineSpec :=
  { Name := "B%d".toList, Image := "imgB".toList, Cmd := [], Privileged := false
    Volumes := [], PortMappings := [] }

/-- The configuration `[A(count=2), B(count=2)]` of the fleet-iterator
scenario. -/
def abConfig : Config :=
  { Cluster := { Name := "cl".toList, PrivateKey := "k".toList }
    Machines := [{ Spec := specA, Count := 2 }, { Spec := specB, Count := 2 }] }

/-- An action that records every invocation `(hostname, index)` in its state
and fails on its second invocation. -/
def failSecondAct : Machine → Nat → List (GoStr × Nat) → List (GoStr × Nat) × Option GoStr :=
  fun m i s => (s ++ [(m.hostname, i)], if s.length = 1 then some "boom".toList else none)

/-- A trace-only action: records every invocation and always succeeds. -/
def traceAct : Machine → Nat → List (GoStr × Nat) → List (GoStr × Nat) × Option GoStr :=
  fun m i s => (s ++ [(m.hostname, i)], none)

/-- An ssh-attempt oracle that always reports the retryable outcome, with a
distinct error per attempt. -/
def allRetryOracle : Nat → Bool × Option GoStr :=
  fun k => (true, some ("attempt ".toList ++ natDec k))

/-- An ssh-attempt oracle that is retryable on attempts 0 and 1 and succeeds
on attempt 2 (the third attempt). -/
def thirdTimeOracle : Nat → Bool × Option GoStr :=
  fun k => if k < 2 then (true, some "refused".toList) else (false, none)

/-- First template of the duplicate-hostname counterexample (claim C2):
name slot `node%d`, image `alpha`. -/
def dupSpecA : MachineSpec :=
  { Name := "node%d".toList, Image := "alpha".toList, Cmd := [], Privileged := false
    Volumes := [], PortMappings := [] }

/-- Second template of the duplicate-hostname counterexample (claim C2):
the same name slot `node%d`, but image `beta`. -/
def dupSpecB : MachineSpec :=
  { Name := "node%d".toList, Image := "beta".toList, Cmd := [], Privileged := false
    Volumes := [], PortMappings := [] }

/-- A configuration declaring two templates with the same name slot: both
produce hostname `node0` for index 0. -/
def dupConfig : Config :=
  { Cluster := { Name := "cl".toList, PrivateKey := "k".toList }
    Machines := [{ Spec := dupSpecA, Count := 1 }, { Spec := dupSpecB, Count := 1 }] }

/-- First template of the hostname-collision counterexample (claim C3):
name slot `node%d`, 13 replicas. -/
def colSpecA : MachineSpec :=
  { Name := "node%d".toList, Image := "img".toList, Cmd := [], Privileged := false
    Volumes := [], PortMappings := [] }

/-- Second template of the hostname-collision counterexample (claim C3):
name slot `node1%d`, 3 replicas: its replica 2 is `node12`, colliding with
replica 12 of `node%d`. -/
def colSpecB : MachineSpec :=
  { Name := "node1%d".toList, Image := "img".toList, Cmd := [], Privileged := false
    Volumes := [], PortMappings := [] }

/-- A configuration declaring both colliding templates. -/
def colConfig : Config :=
  { Cluster := { Name := "cluster".toList, PrivateKey := "k".toList }
    Machines := [{ Spec := colSpecA, Count := 13 }, { Spec := colSpecB, Count := 3 }] }

/-- A one-template, one-replica configuration for the inspection-overlay
evaluation (claim C9). -/
def inspConfig : Config :=
  { Cluster := { Name := "cl".toList, PrivateKey := "k".toList }
    Machines := [{ Spec := sampleSpec, Count := 1 }] }

/-- A backend inspection record whose container port 22 is published on host
port 2222 at 0.0.0.0. -/
def inspRecord : InspectRecord :=
  { Ports := [(22, [{ HostIP := "0.0.0.0".toList, HostPort := "2222".toList }])]
    Mounts := []
    Cmd := ["/sbin/init".toList]
    IPAddress := "172.17.0.2".toList }

/-! ## Basic lemmas -/

theorem digitChar_toNat (n : Nat) (h : n < 10) : (digitChar n).toNat = 48 + n := by
  interval_cases n <;> decide

theorem decVal_append_digit (l : GoStr) (c : Char) :
    decVal (l ++ [c]) = decVal l * 10 + (c.toNat - 48) := by
  simp [decVal, List.foldl_append]

theorem decVal_natDecAux (fuel n : Nat) (h : n < fuel) :
    decVal (natDecAux fuel n) = n := by
  induction fuel generalizing n with
  | zero => omega
  | succ fuel ih =>
    rw [natDecAux]
    by_cases h10 : n < 10
    · simp only [h10, if_true]
      simp [decVal, digitChar_toNat n h10]
    · simp only [h10, if_false]
      rw [decVal_append_digit, ih (n / 10) (by omega),
        digitChar_toNat (n % 10) (Nat.mod_lt _ (by omega))]
      omega

theorem decVal_natDec (n : Nat) : decVal (natDec n) = n :=
  decVal_natDecAux (n + 1) n (Nat.lt_succ_self n)

theorem natDec_injective : Function.Injective natDec := by
  intro a b h
  have := decVal_natDec a
  rw [h, decVal_natDec] at this
  omega

/-- A format fragment with no `%` in it is copied literally. -/
theorem sprintf_lit (l : GoStr) (args : List GoVal) (h : '%' ∉ l) :
    sprintf l args = l ++ extras args := by
  induction l with
  | nil => simp [sprintf]
  | cons c rest ih =>
    have hc : c ≠ '%' := fun hc => h (hc ▸ List.mem_cons_self c rest)
    rw [sprintf.eq_def]
    simp only [hc, if_false]
    rw [ih (fun hm => h (List.mem_cons_of_mem c hm))]
    simp

/-- Splitting lemma: a literal prefix before a `%d` slot. -/
theorem sprintf_pct_d (a b : GoStr) (i : Nat) (ha : '%' ∉ a) :
    sprintf (a ++ '%' :: 'd' :: b) [.int i] = a ++ natDec i ++ sprintf b [] := by
  induction a with
  | nil => simp [sprintf, verbFmt]
  | cons c rest ih =>
    have hc : c ≠ '%' := fun hc => ha (hc ▸ List.mem_cons_self c rest)
    rw [List.cons_append, sprintf.eq_def]
    simp only [hc, if_false]
    rw [ih (fun hm => ha (List.mem_cons_of_mem c hm))]
    simp

theorem sprintf_pct_s (rest : GoStr) (x : GoStr) (args : List GoVal) :
    sprintf ('%' :: 's' :: rest) (.str x :: args) = x ++ sprintf rest args := rfl

theorem sprintf_s_colon (x : GoStr) : sprintf "%s:".toList [.str x] = x ++ [':'] := rfl

theorem sprintf_d_colon (n : Nat) : sprintf "%d:".toList [.int n] = natDec n ++ [':'] := rfl

theorem sprintf_d (n : Nat) : sprintf "%d".toList [.int n] = natDec n := by
  rw [show sprintf "%d".toList [.int n] = natDec n ++ [] from rfl, List.append_nil]

theorem sprintf_slash_s (x : GoStr) : sprintf "/%s".toList [.str x] = '/' :: x := by
  rw [show sprintf "/%s".toList [.str x] = '/' :: (x ++ sprintf [] []) from rfl]
  simp [sprintf, extras]

/-! ## Fleet-iterator lemmas -/

theorem runIndices_eq_runSeq {σ ε : Type} (c : Config)
    (doFn : Machine → Nat → σ → σ × Option ε) (spec : MachineSpec)
    (is : List Nat) (s : σ) :
    runIndices c doFn spec is s = runSeq c doFn (is.map (fun i => (spec, i))) s := by
  induction is generalizing s with
  | nil => rfl
  | cons i rest ih =>
    simp only [runIndices, List.map_cons, runSeq]
    cases doFn (machine c spec i) i s with
    | mk s' e => cases e <;> simp [ih]

theorem runSeq_append {σ ε : Type} (c : Config)
    (doFn : Machine → Nat → σ → σ × Option ε)
    (l₁ l₂ : List (MachineSpec × Nat)) (s : σ) :
    runSeq c doFn (l₁ ++ l₂) s =
      match runSeq c doFn l₁ s with
      | (s', some e) => (s', some e)
      | (s', none) => runSeq c doFn l₂ s' := by
  induction l₁ generalizing s with
  | nil => simp [runSeq]
  | cons p rest ih =>
    obtain ⟨spec, i⟩ := p
    simp only [List.cons_append, runSeq]
    cases doFn (machine c spec i) i s with
    | mk s' e => cases e <;> simp [ih]

/-- Equivalence: `forEachMachine` is exactly the short-circuit traversal of the flattened
schedule. -/
theorem forEachMachine_eq_runSeq {σ ε : Type} (c : Config)
    (doFn : Machine → Nat → σ → σ × Option ε) (s : σ) :
    forEachMachine c doFn s = runSeq c doFn (schedule c) s := by
  unfold forEachMachine schedule
  induction c.Machines generalizing s with
  | nil => rfl
  | cons t rest ih =>
    simp only [runTemplates, List.flatMap_cons, runSeq_append,
      runIndices_eq_runSeq]
    cases runSeq c doFn ((List.range t.Count).map (fun i => (t.Spec, i))) s with
    | mk s' e => cases e <;> simp [ih]

/-- A never-failing tracing action visits every scheduled instance once, in
order. -/
theorem runSeq_traceAct (c : Config) (l : List (MachineSpec × Nat))
    (s : List (GoStr × Nat)) :
    runSeq c traceAct l s =
      (s ++ l.map (fun si => ((machine c si.1 si.2).hostname, si.2)), none) := by
  induction l generalizing s with
  | nil => simp [runSeq]
  | cons p rest ih =>
    obtain ⟨spec, i⟩ := p
    simp [runSeq, traceAct, ih]

/-! ## Claim theorems -/

/-- Claim C1: on an instance whose backend state is absent (`IsRunning`
false), each of `startMachine`, `stopMachine` and `deleteMachine` invokes no
backend primitive, returns a nil error, and leaves the backend state
unchanged (in particular `Start` does not create the instance). -/
theorem C1_absent_lifecycle_noop (st : MachineState) (m : Machine)
    (h : isRunning st = false) :
    startMachine st m = ([], st, none) ∧
    stopMachine st m = ([], st, none) ∧
    deleteMachine st m = ([], st, none) := by
  cases st <;> simp_all [startMachine, stopMachine, deleteMachine, isRunning]

theorem C1_absent_lifecycle_noop_witness :
    isRunning MachineState.absent = false ∧
    (startMachine MachineState.absent sampleMachine = ([], MachineState.absent, none) ∧
     stopMachine MachineState.absent sampleMachine = ([], MachineState.absent, none) ∧
     deleteMachine MachineState.absent sampleMachine = ([], MachineState.absent, none)) :=
  ⟨by decide, C1_absent_lifecycle_noop MachineState.absent sampleMachine (by decide)⟩

/-- Claim C8: `createMachine` on an instance the backend already reports
(`IsRunning` true, i.e. stopped or started) performs no `docker run`, no
first-boot script, no key push, and returns nil; creating from absent
provisions exactly once (one run, one script, one key push, nil error) and a
second create on the resulting state is a no-op. -/
theorem C8_create_idempotent (c : Config) (pubKey : GoStr) (m : Machine) (i : Nat) :
    createMachine c pubKey .started m i = ([], .started, none) ∧
    createMachine c pubKey .stopped m i = ([], .stopped, none) ∧
    (createMachine c pubKey .absent m i).2.2 = none ∧
    ((createMachine c pubKey .absent m i).1.countP isRunCmd = 1 ∧
     (createMachine c pubKey .absent m i).1.countP isExecCmd = 1 ∧
     (createMachine c pubKey .absent m i).1.countP isCopyCmd = 1) ∧
    createMachine c pubKey (createMachine c pubKey .absent m i).2.1 m i
      = ([], (createMachine c pubKey .absent m i).2.1, none) := by
  refine ⟨?_, ?_, ?_, ⟨?_, ?_, ?_⟩, ?_⟩ <;>
    simp [createMachine, isRunning, List.countP, List.countP.go,
      isRunCmd, isExecCmd, isCopyCmd]

/-- The `-p`/publish pair built for a member of a list appears contiguously
in the flat-mapped argument list. -/
theorem flatMap_pair_contig {α β : Type} (f g : α → β) (l : List α) (x : α)
    (hx : x ∈ l) :
    [f x, g x] <:+: l.flatMap (fun y => [f y, g y]) := by
  induction l with
  | nil => simp at hx
  | cons a rest ih =>
    rw [List.flatMap_cons]
    rcases List.mem_cons.mp hx with h | h
    · subst h
      exact ⟨[], rest.flatMap (fun y => [f y, g y]), by simp⟩
    · obtain ⟨s, t, hst⟩ := ih h
      exact ⟨[f a, g a] ++ s, t, by simp [List.append_assoc, hst]⟩

theorem contig_append_left {α : Type} {mid l₂ : List α} (l₁ : List α)
    (h : mid <:+: l₂) : mid <:+: l₁ ++ l₂ := by
  obtain ⟨s, t, rfl⟩ := h
  exact ⟨l₁ ++ s, t, by simp⟩

theorem contig_append_right {α : Type} {mid l₂ : List α} (l₃ : List α)
    (h : mid <:+: l₂) : mid <:+: l₂ ++ l₃ := by
  obtain ⟨s, t, rfl⟩ := h
  exact ⟨s, t ++ l₃, by simp⟩

/-- Claim C4: for replica `i`, each declared port mapping contributes a
`-p <publish>` pair to the docker run arguments, where the publish string
uses effective host port `HostPort + i` when a host port is declared
(prefixed by the bind address when declared), and contains no host-port
segment at all when `HostPort` is zero. -/
theorem C4_publish_effective_host_port (c : Config) (m : Machine) (name : GoStr)
    (i : Nat) (p : PortMapping) (hp : p ∈ m.spec.PortMappings) :
    ["-p".toList, publishArg p i] <:+: createMachineRunArgs c m name i ∧
    (p.HostPort ≠ 0 →
      publishArg p i =
        (if p.Address ≠ [] then p.Address ++ [':'] else []) ++
          natDec (p.HostPort + i) ++ [':'] ++ natDec p.ContainerPort ++
          (if p.Protocol ≠ [] then '/' :: p.Protocol else [])) ∧
    (p.HostPort = 0 →
      publishArg p i =
        (if p.Address ≠ [] then p.Address ++ [':'] else []) ++
          natDec p.ContainerPort ++
          (if p.Protocol ≠ [] then '/' :: p.Protocol else [])) := by
  refine ⟨?_, ?_, ?_⟩
  · have h1 : ["-p".toList, publishArg p i] <:+:
        m.spec.PortMappings.flatMap (fun q => ["-p".toList, publishArg q i]) :=
      flatMap_pair_contig (fun _ => "-p".toList) (fun q => publishArg q i) _ p hp
    simp only [createMachineRunArgs]
    by_cases hpriv : m.spec.Privileged <;> simp only [hpriv, if_true, if_false] <;>
      [exact contig_append_right _ (contig_append_left _ h1);
       exact contig_append_left _ h1]
  · intro h0
    simp only [publishArg, sprintf_s_colon, sprintf_d_colon, sprintf_d, sprintf_slash_s, h0]
    by_cases ha : p.Address = [] <;> by_cases hpr : p.Protocol = [] <;>
      simp [ha, hpr, h0, List.append_assoc]
  · intro h0
    simp only [publishArg, sprintf_s_colon, sprintf_d_colon, sprintf_d, sprintf_slash_s, h0]
    by_cases ha : p.Address = [] <;> by_cases hpr : p.Protocol = [] <;>
      simp [ha, hpr, List.append_assoc]

theorem C4_publish_effective_host_port_witness :
    samplePM ∈ sampleMachine.spec.PortMappings ∧
    (["-p".toList, publishArg samplePM 1] <:+:
        createMachineRunArgs sampleConfig sampleMachine sampleMachine.name 1 ∧
      (samplePM.HostPort ≠ 0 →
        publishArg samplePM 1 =
          (if samplePM.Address ≠ [] then samplePM.Address ++ [':'] else []) ++
            natDec (samplePM.HostPort + 1) ++ [':'] ++ natDec samplePM.ContainerPort ++
            (if samplePM.Protocol ≠ [] then '/' :: samplePM.Protocol else [])) ∧
      (samplePM.HostPort = 0 →
        publishArg samplePM 1 =
          (if samplePM.Address ≠ [] then samplePM.Address ++ [':'] else []) ++
            natDec samplePM.ContainerPort ++
            (if samplePM.Protocol ≠ [] then '/' :: samplePM.Protocol else []))) :=
  ⟨by decide,
   C4_publish_effective_host_port sampleConfig sampleMachine sampleMachine.name 1
     samplePM (by decide)⟩

/-- Claim C5: `forEachMachine` is the short-circuit traversal of the
flattened schedule (templates in declaration order, indices ascending); a
never-failing action is invoked exactly once per instance in that order; and
for templates `[A(count=2), B(count=2)]` with an action failing on its second
invocation, exactly the invocations `(A0, 0)` and `(A1, 1)` occur and the
second invocation's error is returned. -/
theorem C5_forEach_order_short_circuit :
    (∀ (σ ε : Type) (c : Config) (doFn : Machine → Nat → σ → σ × Option ε) (s : σ),
        forEachMachine c doFn s = runSeq c doFn (schedule c) s) ∧
    (∀ c : Config,
        forEachMachine c traceAct [] =
          ((schedule c).map (fun si => ((machine c si.1 si.2).hostname, si.2)), none)) ∧
    forEachMachine abConfig failSecondAct [] =
      ([("A0".toList, 0), ("A1".toList, 1)], some "boom".toList) := by
  refine ⟨fun σ ε c doFn s => forEachMachine_eq_runSeq c doFn s, fun c => ?_, by decide⟩
  rw [forEachMachine_eq_runSeq, runSeq_traceAct]
  simp

/-! ## SSH retry-loop lemmas -/

theorem sshRetryLoop_all_retry (attempt : Nat → Bool × Option GoStr) :
    ∀ (r k sleeps : Nat) (err : Option GoStr),
      (∀ t, t ≤ r → (attempt (k + t)).1 = true) →
      sshRetryLoop attempt (r + 1) k sleeps err =
        ((attempt (k + r)).2, k + r + 1, sleeps + r + 1) := by
  intro r
  induction r with
  | zero =>
    intro k sleeps err h
    have h0 := h 0 (by omega)
    simp only [Nat.add_zero] at h0 ⊢
    simp only [sshRetryLoop]
    cases hA : attempt k with
    | mk retry err' =>
      rw [hA] at h0
      simp only at h0
      simp [h0, sshRetryLoop]
  | succ r ih =>
    intro k sleeps err h
    have h0 := h 0 (by omega)
    simp only [Nat.add_zero] at h0
    rw [sshRetryLoop]
    cases hA : attempt k with
    | mk retry err' =>
      rw [hA] at h0
      simp only at h0
      simp only [h0, if_true]
      rw [ih (k + 1) (sleeps + 1) err' (fun t ht => by
        have := h (t + 1) (by omega)
        rwa [show k + (t + 1) = k + 1 + t by omega] at this)]
      rw [show k + 1 + r = k + (r + 1) by omega,
        show sleeps + 1 + r + 1 = sleeps + (r + 1) + 1 by omega]

theorem sshRetryLoop_stops (attempt : Nat → Bool × Option GoStr) :
    ∀ (j r k sleeps : Nat) (err : Option GoStr),
      j < r →
      (∀ t, t < j → (attempt (k + t)).1 = true) →
      (attempt (k + j)).1 = false →
      sshRetryLoop attempt r k sleeps err =
        ((attempt (k + j)).2, k + j + 1, sleeps + j) := by
  intro j
  induction j with
  | zero =>
    intro r k sleeps err hjr _h hstop
    cases r with
    | zero => omega
    | succ r =>
      simp only [Nat.add_zero] at hstop ⊢
      rw [sshRetryLoop]
      cases hA : attempt k with
      | mk retry err' =>
        rw [hA] at hstop
        simp only at hstop
        simp [hstop]
  | succ j ih =>
    intro r k sleeps err hjr h hstop
    cases r with
    | zero => omega
    | succ r =>
      have h0 := h 0 (by omega)
      simp only [Nat.add_zero] at h0
      rw [sshRetryLoop]
      cases hA : attempt k with
      | mk retry err' =>
        rw [hA] at h0
        simp only at h0
        simp only [h0, if_true]
        rw [ih r (k + 1) (sleeps + 1) err' (by omega)
          (fun t ht => by
            have := h (t + 1) (by omega)
            rwa [show k + (t + 1) = k + 1 + t by omega] at this)
          (by rwa [show k + 1 + j = k + (j + 1) by omega])]
        rw [show k + 1 + j = k + (j + 1) by omega,
          show sleeps + 1 + j = sleeps + (j + 1) by omega]

/-- Claim C6: the SSH retry loop makes at most 25 attempts with one 200ms
sleep between consecutive attempts; if every attempt is retryable it makes
exactly 25 attempts (and 25 sleeps) and returns the last attempt's error; a
non-retryable outcome at attempt `j` (zero-based) stops the loop there,
returning that attempt's result after `j+1` attempts with no further sleep. -/
theorem C6_retry_budget (attempt : Nat → Bool × Option GoStr) :
    ((∀ k, k < 25 → (attempt k).1 = true) →
        sshConnect attempt = ((attempt 24).2, 25, 25)) ∧
    (∀ j, j < 25 → (∀ k, k < j → (attempt k).1 = true) → (attempt j).1 = false →
        sshConnect attempt = ((attempt j).2, j + 1, j)) := by
  constructor
  · intro h
    have := sshRetryLoop_all_retry attempt 24 0 0 none
      (fun t ht => by simpa using h t (by omega))
    simpa using this
  · intro j hj hpre hstop
    have := sshRetryLoop_stops attempt j 25 0 0 none hj
      (fun t ht => by simpa using hpre t ht) (by simpa using hstop)
    simpa using this

theorem C6_retry_budget_witness :
    sshConnect allRetryOracle = ((allRetryOracle 24).2, 25, 25) ∧
    sshConnect thirdTimeOracle = ((thirdTimeOracle 2).2, 3, 2) :=
  ⟨(C6_retry_budget allRetryOracle).1 (fun _ _ => rfl),
   (C6_retry_budget thirdTimeOracle).2 2 (by decide) (by decide) (by decide)⟩

/-! ## stderr-filter lemmas -/

/-- The two regexps are disjoint: a payload starting with the
transient-refusal signature cannot match the known-hosts warning pattern. -/
theorem connectRefused_not_knownHosts (p : GoStr) (h : connectRefusedMatch p = true) :
    knownHostsMatch p = false := by
  cases hk : knownHostsMatch p
  · rfl
  · exfalso
    simp only [connectRefusedMatch, List.isPrefixOf_iff_prefix] at h
    simp only [knownHostsMatch, Bool.and_eq_true, List.isPrefixOf_iff_prefix] at hk
    obtain ⟨t, ht⟩ := h
    obtain ⟨u, hu⟩ := hk.1
    have e1 : p.head? = some 's' := by rw [← ht]; rfl
    have e2 : p.head? = some 'W' := by rw [← hu]; rfl
    rw [e1] at e2
    simp at e2

/-- Unfolding `writeAll` one payload at a time. -/
theorem writeAll_cons (w : Writer) (p : GoStr) (rest : List GoStr) :
    writeAll w (p :: rest) =
      ((writeAll (writeTo w p).1 rest).1,
       (writeTo w p).2.1 ++ (writeAll (writeTo w p).1 rest).2) := by
  simp only [writeAll]

/-- One `Write` on a filter updates its `matched` flag to `m || pat p` and
preserves its shape. -/
theorem writeTo_filter_shape (wm : Bool) (pat : GoStr → Bool) (m : Bool)
    (w : Writer) (p : GoStr) :
    ∃ w', (writeTo (.filter wm pat m w) p).1 = .filter wm pat (m || pat p) w' := by
  cases hp : pat p
  · cases hw : writeTo w p with
    | mk w' r =>
      cases r with
      | mk out ret => exact ⟨w', by simp [writeTo, hp, hw]⟩
  · cases wm
    · exact ⟨w, by simp [writeTo, hp]⟩
    · cases hw : writeTo w p with
      | mk w' r =>
        cases r with
        | mk out ret => exact ⟨w', by simp [writeTo, hp, hw]⟩

/-- The `matched` flag after a sequence of writes: true iff it was already
true or some single payload matches on its own. -/
theorem writerMatched_writeAll (wm : Bool) (pat : GoStr → Bool) :
    ∀ (writes : List GoStr) (w : Writer) (m : Bool),
      writerMatched (writeAll (.filter wm pat m w) writes).1 = (m || writes.any pat) := by
  intro writes
  induction writes with
  | nil => intro w m; simp [writeAll, writerMatched]
  | cons p rest ih =>
    intro w m
    rw [writeAll_cons]
    obtain ⟨w', hw'⟩ := writeTo_filter_shape wm pat m w p
    rw [hw', ih w' (m || pat p)]
    simp [Bool.or_assoc]

/-- Full behaviour of the `ssh` stderr chain on a sequence of payloads:
final flags and the payloads that reach the user's stderr. -/
theorem writeAll_sshChain :
    ∀ (writes : List GoStr) (m1 m2 : Bool),
      writeAll (.filter false knownHostsMatch m1
          (.filter false connectRefusedMatch m2 .stderr)) writes =
        (.filter false knownHostsMatch (m1 || writes.any knownHostsMatch)
           (.filter false connectRefusedMatch
              (m2 || writes.any (fun p => !knownHostsMatch p && connectRefusedMatch p))
              .stderr),
         writes.filter (fun p => !knownHostsMatch p && !connectRefusedMatch p)) := by
  intro writes
  induction writes with
  | nil => intro m1 m2; simp [writeAll]
  | cons p rest ih =>
    intro m1 m2
    rw [writeAll_cons]
    cases hk : knownHostsMatch p
    · cases hc : connectRefusedMatch p
      · have hstep : writeTo (.filter false knownHostsMatch m1
            (.filter false connectRefusedMatch m2 .stderr)) p =
            (.filter false knownHostsMatch m1
              (.filter false connectRefusedMatch m2 .stderr), [p], (p.length, none)) := by
          simp [writeTo, hk, hc]
        rw [hstep, ih m1 m2]
        simp [hk, hc]
      · have hstep : writeTo (.filter false knownHostsMatch m1
            (.filter false connectRefusedMatch m2 .stderr)) p =
            (.filter false knownHostsMatch m1
              (.filter false connectRefusedMatch true .stderr), [], (p.length, none)) := by
          simp [writeTo, hk, hc]
        rw [hstep, ih m1 true]
        simp [hk, hc]
    · have hstep : writeTo (.filter false knownHostsMatch m1
          (.filter false connectRefusedMatch m2 .stderr)) p =
          (.filter false knownHostsMatch true
            (.filter false connectRefusedMatch m2 .stderr), [], (p.length, none)) := by
        simp [writeTo, hk]
      rw [hstep, ih true m2]
      simp [hk]

/-- Claim C7: one ssh attempt is classified retryable exactly when the
subprocess exits with an error and some stderr payload starts with
`ssh_exchange_identification: `; both the transient-refusal payloads and the
known-hosts warning payloads are suppressed from the user-visible stderr,
while every other payload is forwarded. -/
theorem C7_attempt_classification (exitErr : Option GoStr) (writes : List GoStr) :
    sshAttempt exitErr writes =
      (exitErr.isSome && writes.any connectRefusedMatch, exitErr,
       writes.filter (fun p => !knownHostsMatch p && !connectRefusedMatch p)) := by
  have hany : ∀ p, (!knownHostsMatch p && connectRefusedMatch p) = connectRefusedMatch p := by
    intro p
    cases hc : connectRefusedMatch p
    · simp
    · simp [connectRefused_not_knownHosts p hc]
  unfold sshAttempt sshFilterChain
  rw [writeAll_sshChain]
  simp only [innerMatched, writerMatched, Bool.false_or,
    show (fun p => !knownHostsMatch p && connectRefusedMatch p) = connectRefusedMatch
      from funext hany]

/-- Claim C10: `matchFilter.Write` detects its pattern only within a single
write payload — the `matched` flag after a sequence of writes is true iff it
was already true or some individual payload matches on its own (so a
signature split across two writes is never detected, witnessed concretely),
the flag is never cleared once set, and a suppressed matched write still
reports the full payload length with a nil error. -/
theorem C10_match_filter_single_write (wm : Bool) (pat : GoStr → Bool) (m : Bool)
    (w : Writer) (p : GoStr) :
    writerMatched (writeTo (.filter wm pat m w) p).1 = (m || pat p) ∧
    (∀ writes : List GoStr,
        writerMatched (writeAll (.filter wm pat m w) writes).1 = (m || writes.any pat)) ∧
    (pat p = true → wm = false →
        writeTo (.filter wm pat m w) p = (.filter wm pat true w, [], (p.length, none))) ∧
    connectRefusedMatch
      ("ssh_exchange_".toList ++ "identification: read: Connection reset by peer".toList)
      = true ∧
    writerMatched (writeAll (.filter false connectRefusedMatch false .stderr)
        ["ssh_exchange_".toList,
         "identification: read: Connection reset by peer".toList]).1 = false := by
  refine ⟨?_, fun writes => writerMatched_writeAll wm pat writes w m, ?_, by decide, by decide⟩
  · obtain ⟨w', hw'⟩ := writeTo_filter_shape wm pat m w p
    rw [hw']
    rfl
  · intro hp hwm
    subst hwm
    simp [writeTo, hp]

theorem C10_match_filter_single_write_witness :
    writerMatched (writeTo (.filter false connectRefusedMatch false .stderr)
        "ssh_exchange_identification: read: Connection reset by peer".toList).1
      = (false || connectRefusedMatch
          "ssh_exchange_identification: read: Connection reset by peer".toList) ∧
    (connectRefusedMatch
        "ssh_exchange_identification: read: Connection reset by peer".toList = true →
      false = false →
      writeTo (.filter false connectRefusedMatch false .stderr)
          "ssh_exchange_identification: read: Connection reset by peer".toList =
        (.filter false connectRefusedMatch true .stderr, [],
         ("ssh_exchange_identification: read: Connection reset by peer".toList.length,
          none))) :=
  ⟨(C10_match_filter_single_write false connectRefusedMatch false .stderr
      "ssh_exchange_identification: read: Connection reset by peer".toList).1,
   (C10_match_filter_single_write false connectRefusedMatch false .stderr
      "ssh_exchange_identification: read: Connection reset by peer".toList).2.2.1⟩

/-! ## Identity-resolver theorems -/

/-- Counterexample to claim C2 as stated: with two declared templates whose
name slots coincide (`node%d` with images `alpha` and `beta`), resolving the
second template's hostname `node0` returns the first template's machine, not
the machine for `(dupSpecB, 0)`. -/
theorem C2_first_match_shadows :
    machineFromHostname dupConfig (hostnameOf dupSpecB 0) =
      .ok (machine dupConfig dupSpecA 0) ∧
    machine dupConfig dupSpecA 0 ≠ machine dupConfig dupSpecB 0 ∧
    ({ Spec := dupSpecB, Count := 1 } : MachineReplicas) ∈ dupConfig.Machines ∧
    (0 : Nat) < 1 :=
  ⟨rfl, by decide, by decide, by decide⟩

/-- Claim C2 (amended): `machineFromHostname` returns the machine of the
first declared `(template, index)` pair producing the hostname — hence it
returns the machine for `(t, i)` whenever every declared pair producing that
hostname yields the same machine (in particular when hostnames are unique);
and every hostname produced by no declared pair yields the
invalid-hostname error. -/
theorem C2_resolve_roundtrip (c : Config) :
    (∀ t, t ∈ c.Machines → ∀ i, i < t.Count →
      (∀ t', t' ∈ c.Machines → ∀ i', i' < t'.Count →
          hostnameOf t'.Spec i' = hostnameOf t.Spec i →
          machine c t'.Spec i' = machine c t.Spec i) →
      machineFromHostname c (hostnameOf t.Spec i) = .ok (machine c t.Spec i)) ∧
    (∀ h : GoStr,
      (∀ t, t ∈ c.Machines → ∀ i, i < t.Count → hostnameOf t.Spec i ≠ h) →
      machineFromHostname c h = .error (h ++ ": invalid machine hostname".toList)) := by
  constructor
  · intro t ht i hi huniq
    unfold machineFromHostname
    cases hfind : c.Machines.findSome? (fun t' =>
        (List.range t'.Count).findSome? (fun i' =>
          if hostnameOf t.Spec i = hostnameOf t'.Spec i'
          then some (machine c t'.Spec i') else none)) with
    | none =>
      exfalso
      rw [List.findSome?_eq_none_iff] at hfind
      have hinner := hfind t ht
      rw [List.findSome?_eq_none_iff] at hinner
      have := hinner i (List.mem_range.mpr hi)
      simp at this
    | some m =>
      obtain ⟨t', ht', hFt'⟩ := List.exists_of_findSome?_eq_some hfind
      obtain ⟨i', hi'mem, hFi'⟩ := List.exists_of_findSome?_eq_some hFt'
      by_cases heq : hostnameOf t.Spec i = hostnameOf t'.Spec i'
      · rw [if_pos heq] at hFi'
        have hm : m = machine c t'.Spec i' := (Option.some.injEq _ _ ▸ hFi').symm
        rw [hm, huniq t' ht' i' (List.mem_range.mp hi'mem) heq.symm]
      · rw [if_neg heq] at hFi'
        exact absurd hFi' (by simp)
  · intro h hno
    unfold machineFromHostname
    have hfind : c.Machines.findSome? (fun t =>
        (List.range t.Count).findSome? (fun i =>
          if h = hostnameOf t.Spec i then some (machine c t.Spec i) else none)) = none := by
      rw [List.findSome?_eq_none_iff]
      intro t ht
      rw [List.findSome?_eq_none_iff]
      intro i hi
      rw [if_neg (Ne.symm (hno t ht i (List.mem_range.mp hi)))]
    rw [hfind]

theorem C2_resolve_roundtrip_witness :
    machineFromHostname sampleConfig (hostnameOf sampleSpec 1) =
      .ok (machine sampleConfig sampleSpec 1) ∧
    machineFromHostname sampleConfig "nonesuch".toList =
      .error ("nonesuch".toList ++ ": invalid machine hostname".toList) :=
  ⟨(C2_resolve_roundtrip sampleConfig).1 { Spec := sampleSpec, Count := 2 }
      (by decide) 1 (by decide) (by decide),
   (C2_resolve_roundtrip sampleConfig).2 "nonesuch".toList (by decide)⟩

/-- Counterexample to claim C3 as stated: the distinct declared pairs
`(node%d, 12)` and `(node1%d, 2)` produce the same hostname `node12` and the
same container name `cluster-node12`. -/
theorem C3_hostname_collision :
    ({ Spec := colSpecA, Count := 13 } : MachineReplicas) ∈ colConfig.Machines ∧
    ({ Spec := colSpecB, Count := 3 } : MachineReplicas) ∈ colConfig.Machines ∧
    (12 : Nat) < 13 ∧ (2 : Nat) < 3 ∧
    colSpecA.Name ≠ colSpecB.Name ∧
    hostnameOf colSpecA 12 = hostnameOf colSpecB 2 ∧
    containerName colConfig colSpecA 12 = containerName colConfig colSpecB 2 := by
  decide

/-- Claim C3 (amended): container name and hostname are (pure, deterministic)
functions of `(cluster name, template name, index)`, and for a fixed template
whose name is a literal with a single `%d` slot, distinct indices never
collide — but distinct `(templateName, index)` pairs may collide across
templates (see the counterexample). -/
theorem C3_identity_injective_per_template (c : Config) (spec : MachineSpec)
    (a b : GoStr) (hname : spec.Name = a ++ '%' :: 'd' :: b)
    (ha : '%' ∉ a) (hb : '%' ∉ b) (i j : Nat) :
    (i ≠ j → hostnameOf spec i ≠ hostnameOf spec j) ∧
    (i ≠ j → containerName c spec i ≠ containerName c spec j) := by
  have hhost : ∀ k : Nat, hostnameOf spec k = a ++ natDec k ++ b := by
    intro k
    unfold hostnameOf
    rw [hname, sprintf_pct_d a b k ha, sprintf_lit b [] hb]
    simp [extras]
  have hcont : ∀ k : Nat,
      containerName c spec k = c.Cluster.Name ++ (('-' :: a) ++ natDec k ++ b) := by
    intro k
    unfold containerName
    rw [hname]
    rw [show "%s-".toList ++ (a ++ '%' :: 'd' :: b) =
      '%' :: 's' :: (('-' :: a) ++ '%' :: 'd' :: b) by simp]
    rw [sprintf_pct_s, sprintf_pct_d ('-' :: a) b k
      (by simp [List.mem_cons]; exact ha), sprintf_lit b [] hb]
    simp [extras]
  constructor
  · intro hij heq
    rw [hhost i, hhost j] at heq
    exact hij (natDec_injective (List.append_cancel_left (List.append_cancel_right heq)))
  · intro hij heq
    rw [hcont i, hcont j] at heq
    have h1 := List.append_cancel_left heq
    exact hij (natDec_injective (List.append_cancel_left (List.append_cancel_right h1)))

theorem C3_identity_injective_per_template_witness :
    hostnameOf sampleSpec 0 ≠ hostnameOf sampleSpec 1 ∧
    containerName sampleConfig sampleSpec 0 ≠ containerName sampleConfig sampleSpec 1 :=
  ⟨(C3_identity_injective_per_template sampleConfig sampleSpec "node".toList []
      rfl (by decide) (by decide) 0 1).1 (by decide),
   (C3_identity_injective_per_template sampleConfig sampleSpec "node".toList []
      rfl (by decide) (by decide) 0 1).2 (by decide)⟩

/-! ## Inspection-overlay theorem -/

/-- Claim C9 evaluation: for a running machine whose backend binding
publishes container port 22 on host port 2222 at `0.0.0.0`, the overlaid
mapping produced by `gatherMachines` has `HostPort = 22` (the backend's
container port) and `ContainerPort = 2222` (the backend's published host
port) — the two fields are swapped relative to the claim — while `Address`
does receive the binding's host IP. -/
theorem C9_overlay_ports_swapped :
    (gatherMachines inspConfig (fun _ => true) (fun _ => inspRecord)).map
        (fun m => m.spec.PortMappings) =
      [[{ Address := "0.0.0.0".toList, HostPort := 22, ContainerPort := 2222,
          Protocol := [] }]] ∧
    overlayPorts inspRecord.Ports =
      [{ Address := "0.0.0.0".toList, HostPort := 22, ContainerPort := 2222,
         Protocol := [] }] ∧
    (gatherMachines inspConfig (fun _ => true) (fun _ => inspRecord)).map
        (fun m => (m.ip, m.spec.Cmd)) =
      [("172.17.0.2".toList, "/sbin/init".toList)] := by
  decide

end Footloose
